import Mathlib

set_option linter.dupNamespace false

/-! # porch/pkg/errors

A shallow embedding of `porch/pkg/errors/errors.go`: the `Reason` taxonomy with its three
mappings, the `Error` record, the variadic constructor `E` with its one-step compression of
an empty wrapped `Error`, and the derivation of the transport status object.

Conventions of the embedding.

* `Reason` is Go's `type Reason int`; it is embedded as `Int`.
* An error value, a value of Go's interface type `error` that has a display text or is nil,
  is embedded as the inductive type `error`: the nil interface, a `*Error` that points to a
  record (given by that record), or an error of any other implementation, given by its
  display text and by what `errors.Unwrap` returns for it.  Values of an inductive type are
  finite, so every cause chain of the embedding is finite.
* A nil `*Error` held in a non-nil interface has no record behind it and no display text; it
  is no link of a cause chain.  `E` can receive it as an argument, takes it as an error in
  its type switch and reads through it in `wrapped.IsRedundant()`; it is embedded as the
  argument `Arg.nilError` and as the content `Held.nilPtr` of the field `Err` while `E`
  runs.
* `klog.Fatalf` ends the process and reading through a nil pointer is a run-time panic; `E`
  therefore returns an `Option`, `none` standing for a call that returns no `Error`.
-/

/-! ## Constants of the imported packages -/

namespace http

/-- Modelled from the spec: `net/http.StatusBadRequest`, a constant of an imported package. -/
abbrev StatusBadRequest : Int := 400

/-- Modelled from the spec: `net/http.StatusUnauthorized`, a constant of an imported package. -/
abbrev StatusUnauthorized : Int := 401

/-- Modelled from the spec: `net/http.StatusNotFound`, a constant of an imported package. -/
abbrev StatusNotFound : Int := 404

/-- Modelled from the spec: `net/http.StatusConflict`, a constant of an imported package. -/
abbrev StatusConflict : Int := 409

/-- Modelled from the spec: `net/http.StatusInternalServerError`, a constant of an imported
package. -/
abbrev StatusInternalServerError : Int := 500

/-- Modelled from the spec: `net/http.StatusNotImplemented`, a constant of an imported
package. -/
abbrev StatusNotImplemented : Int := 501

end http

namespace metav1

/-- Modelled from the spec: `metav1.StatusReason`, a string type of an imported package. -/
abbrev StatusReason := String

/-- Modelled from the spec: `metav1.StatusReasonUnauthorized`. -/
abbrev StatusReasonUnauthorized : StatusReason := "Unauthorized"

/-- Modelled from the spec: `metav1.StatusReasonNotFound`. -/
abbrev StatusReasonNotFound : StatusReason := "NotFound"

/-- Modelled from the spec: `metav1.StatusReasonConflict`. -/
abbrev StatusReasonConflict : StatusReason := "Conflict"

/-- Modelled from the spec: `metav1.StatusReasonBadRequest`. -/
abbrev StatusReasonBadRequest : StatusReason := "BadRequest"

/-- Modelled from the spec: `metav1.StatusReasonInternalError`. -/
abbrev StatusReasonInternalError : StatusReason := "InternalError"

/-- Modelled from the spec: `metav1.StatusFailure`, the failure indicator of a status. -/
abbrev StatusFailure : String := "Failure"

/-- Modelled from the spec: `metav1.StatusCause`; only `Message` is ever set by this package,
the other fields keep their zero value. -/
structure StatusCause where
  Message : String
deriving DecidableEq, Repr

/-- Modelled from the spec: `metav1.StatusDetails`; only `Causes` is ever set by this package. -/
structure StatusDetails where
  Causes : List StatusCause
deriving DecidableEq, Repr

/-- Modelled from the spec: `metav1.Status`, with the five fields this package sets;
`Details` is a pointer, `none` being nil. -/
structure Status where
  Status : String
  Message : String
  Reason : StatusReason
  Details : Option StatusDetails
  Code : Int
deriving DecidableEq, Repr

end metav1

namespace errors

/-! ## Data model -/

/-- Reason code for the error: `type Reason int`. -/
abbrev Reason := Int

/-- Unknown error, the zero value (`iota` = 0). -/
abbrev UnknownReason : Reason := 0
/-- `iota` = 1. -/
abbrev Invalid : Reason := 1
/-- `iota` = 2. -/
abbrev Unauthorized : Reason := 2
/-- `iota` = 3. -/
abbrev NotFound : Reason := 3
/-- `iota` = 4. -/
abbrev Conflict : Reason := 4
/-- `iota` = 5. -/
abbrev Internal : Reason := 5
/-- `iota` = 6. -/
abbrev NotImplemented : Reason := 6

/-- An error value of Go's interface type `error`.  `nil` is the nil interface; `ptr` is a
`*Error` that points to a record, given by the three fields of that record; `foreign` is an
error of any other implementation, given by the text its `Error()` returns and by the result
of `errors.Unwrap` on it (`nil` when it has no `Unwrap() error` method).  A nil `*Error` held
in a non-nil interface is not among these values: see `Held`. -/
inductive error where
  | nil : error
  | ptr (Reason : Reason) (Message : String) (Err : error) : error
  | foreign (text : String) (unwrap : error) : error
deriving DecidableEq, Repr

/-- Error is modeled after kpt's error handling: a reason, a message and a wrapped error,
if any. -/
structure Error where
  Reason : Reason := UnknownReason
  Message : String := ""
  Err : error := error.nil
deriving DecidableEq, Repr

/-- The interface value `error` that holds a pointer to the record `e`. -/
def Error.toError (e : Error) : error :=
  error.ptr e.Reason e.Message e.Err

/-- What an interface of type `error` can hold in a call of `E`: an error value (`value`,
the nil interface included), or a nil `*Error` pointer held in a non-nil interface
(`nilPtr`), whose dynamic type is `*Error` although there is no record behind it. -/
inductive Held where
  | value (a : error) : Held
  | nilPtr : Held
deriving DecidableEq, Repr

/-- The record `e := &Error{}` that `E` fills in, while `E` runs: its field `Err` can hold a
nil `*Error` pointer received as an argument. -/
structure Draft where
  Reason : Reason := UnknownReason
  Message : String := ""
  Err : Held := Held.value error.nil
deriving DecidableEq, Repr

/-- One argument of the variadic `E(args ...interface{})`, by its dynamic type: a `Reason`,
a `string`, an error value (`err error.nil` is a nil error passed as an argument, which
reaches `E` as the nil interface), a nil `*Error` pointer (`nilError`, a non-nil interface
of dynamic type `*Error`), or a value of any other type. -/
inductive Arg where
  | reason (a : Reason) : Arg
  | str (a : String) : Arg
  | err (a : error) : Arg
  | nilError : Arg
  | other : Arg
deriving DecidableEq, Repr

/-! ## Reason mappings -/

/-- The verb `%d` of `fmt.Sprintf` on an integer: its decimal rendering, with a leading
minus sign when negative. -/
def fmtD (n : Int) : String :=
  toString n

/-- `func (r Reason) String() string`. -/
def Reason.String (r : Reason) : String :=
  if r = UnknownReason then "unknown"
  else if r = Invalid then "invalid"
  else if r = Unauthorized then "unauthorized"
  else if r = NotFound then "not found"
  else if r = Conflict then "conflict"
  else if r = Internal then "internal"
  else if r = NotImplemented then "not implemented"
  else "unknown (" ++ fmtD r ++ ")"

/-- `func (r Reason) StatusReason() metav1.StatusReason`; the default case falls through to
the case of `UnknownReason`. -/
def Reason.StatusReason (r : Reason) : metav1.StatusReason :=
  if r = UnknownReason then metav1.StatusReasonInternalError
  else if r = Invalid then metav1.StatusReasonBadRequest
  else if r = Unauthorized then metav1.StatusReasonUnauthorized
  else if r = NotFound then metav1.StatusReasonNotFound
  else if r = Conflict then metav1.StatusReasonConflict
  else if r = Internal then metav1.StatusReasonInternalError
  else if r = NotImplemented then metav1.StatusReasonInternalError
  else metav1.StatusReasonInternalError

/-- `func (r Reason) Code() int32`; the default case falls through to the case of
`UnknownReason`. -/
def Reason.Code (r : Reason) : Int :=
  if r = UnknownReason then http.StatusInternalServerError
  else if r = Invalid then http.StatusBadRequest
  else if r = Unauthorized then http.StatusUnauthorized
  else if r = NotFound then http.StatusNotFound
  else if r = Conflict then http.StatusConflict
  else if r = Internal then http.StatusInternalServerError
  else if r = NotImplemented then http.StatusNotImplemented
  else http.StatusInternalServerError

/-! ## Methods of `Error` -/

/-- `func (e *Error) Error() string`: `fmt.Sprintf("%s; %s", e.Reason, e.Message)`, the verb
`%s` rendering the reason through its `String` method. -/
def Error.Error (e : Error) : String :=
  Reason.String e.Reason ++ "; " ++ e.Message

/-- `func (e *Error) Unwrap() error`. -/
def Error.Unwrap (e : errors.Error) : error :=
  e.Err

/-- `func (e *Error) IsRedundant() bool`. -/
def Error.IsRedundant (e : errors.Error) : Bool :=
  e.Message == "" && e.Reason == UnknownReason

/-- The loop of `StatusDetails`,
`for err := e.Err; err != nil; err = errors.Unwrap(err) { causes = append(causes, ...) }`,
started at `err` with the entries `causes` collected so far.  The three cases are the loop
test and the dynamic dispatch of `err.Error()` and of `errors.Unwrap(err)`: a `*Error`
renders through `Error.Error` and unwraps to its field `Err`. -/
def Error.StatusDetails.loop : error → List metav1.StatusCause → List metav1.StatusCause
  | error.nil, causes => causes
  | error.ptr r m w, causes =>
      Error.StatusDetails.loop w (causes ++ [{ Message := Error.Error ⟨r, m, w⟩ }])
  | error.foreign text w, causes =>
      Error.StatusDetails.loop w (causes ++ [{ Message := text }])

/-- `func (e *Error) StatusDetails() *metav1.StatusDetails`; `none` is the nil pointer. -/
def Error.StatusDetails (e : errors.Error) : Option metav1.StatusDetails :=
  let causes := Error.StatusDetails.loop e.Err []
  if causes.length > 0 then some { Causes := causes } else none

/-- `func (e *Error) Status() metav1.Status`. -/
def Error.Status (e : errors.Error) : metav1.Status :=
  { Status := metav1.StatusFailure
    Message := e.Message
    Reason := Reason.StatusReason e.Reason
    Details := Error.StatusDetails e
    Code := Reason.Code e.Reason }

/-! ## The constructor -/

/-- One iteration of the type switch in `E`: `some` of the updated record, or `none` when the
default case calls `klog.Fatalf`.  A nil interface matches no case of a type switch, so a nil
error argument reaches the default case; a nil `*Error` pointer has dynamic type `*Error` and
is taken by `case error`. -/
def E.step (e : Draft) : Arg → Option Draft
  | Arg.reason a => some { e with Reason := a }
  | Arg.str a => some { e with Message := a }
  | Arg.err error.nil => none
  | Arg.err a => some { e with Err := Held.value a }
  | Arg.nilError => some { e with Err := Held.nilPtr }
  | Arg.other => none

/-- The loop `for _, arg := range args` of `E`, from the record `e` built so far. -/
def E.loop : List Arg → Draft → Option Draft
  | [], e => some e
  | arg :: rest, e =>
      match E.step e arg with
      | none => none
      | some e1 => E.loop rest e1

/-- Compress away empty errors: the last statement of `E`,
`if wrapped, ok := e.Err.(*Error); ok && wrapped.IsRedundant() { e.Err = wrapped.Err }`,
followed by `return e`.  On a nil `*Error` pointer the type assertion succeeds and
`wrapped.IsRedundant()` reads `e.Message` through the nil pointer, a run-time panic: the
result is `none`. -/
def E.compress (e : Draft) : Option errors.Error :=
  match e.Err with
  | Held.nilPtr => none
  | Held.value (error.ptr r m w) =>
      if Error.IsRedundant ⟨r, m, w⟩ then
        some { Reason := e.Reason, Message := e.Message, Err := Error.Unwrap ⟨r, m, w⟩ }
      else some { Reason := e.Reason, Message := e.Message, Err := error.ptr r m w }
  | Held.value a => some { Reason := e.Reason, Message := e.Message, Err := a }

/-- Creates an error object from arguments: `func E(args ...interface{}) error`.  The result
is `none` when the call returns no `Error` (the process is ended by `klog.Fatalf`, or the
call panics on a nil pointer), and otherwise the record behind the returned pointer. -/
def E (args : List Arg) : Option errors.Error :=
  if args.length = 0 then none
  else
    match E.loop args {} with
    | none => none
    | some e => E.compress e

/-! ## Notions of the specification -/

/-- The seven named `Reason` values. -/
def namedReasons : List Reason :=
  [UnknownReason, Invalid, Unauthorized, NotFound, Conflict, Internal, NotImplemented]

/-- One link of a cause chain, without what it wraps: an `Error` with its reason and message,
or an error of another implementation with its display text. -/
inductive Link where
  | structured (Reason : Reason) (Message : String) : Link
  | foreign (text : String) : Link
deriving DecidableEq, Repr

/-- The display text of a link: `"<reason label>; <message>"` for an `Error` link, the
value's own text for a non-`Error` link. -/
def Link.text : Link → String
  | Link.structured r m => Reason.String r ++ "; " ++ m
  | Link.foreign t => t

/-- A link is redundant when it is an `Error` whose message is empty and whose reason is
Unknown. -/
def Link.redundant : Link → Bool
  | Link.structured r m => decide (m = "") && decide (r = UnknownReason)
  | Link.foreign _ => false

/-- The cause chain that starts at `err`: `err` itself when it is not nil, then what it
unwraps to, and so on until no further cause exists. -/
def chain : error → List Link
  | error.nil => []
  | error.ptr r m w => Link.structured r m :: chain w
  | error.foreign t w => Link.foreign t :: chain w

/-- The standard chain-walking step `errors.Unwrap(err)` of the standard library: the field
`Err` of a `*Error`, the wrapped error of another implementation, nil for nil. -/
def unwrap : error → error
  | error.nil => error.nil
  | error.ptr _ _ w => w
  | error.foreign _ w => w

/-- The causes list carried by an optional `StatusDetails`; an absent one carries none. -/
def causesOf (d : Option metav1.StatusDetails) : List metav1.StatusCause :=
  match d with
  | none => []
  | some d => d.Causes

/-- An argument is of a recognised shape when it is a `Reason`, a string or an error-shaped
value; a nil error is no value of any shape, and a nil `*Error` pointer is error-shaped (its
dynamic type `*Error` implements `error`). -/
def Arg.recognised : Arg → Bool
  | Arg.reason _ => true
  | Arg.str _ => true
  | Arg.err error.nil => false
  | Arg.err _ => true
  | Arg.nilError => true
  | Arg.other => false

/-- The `Reason` an argument is, if it is one. -/
def Arg.asReason : Arg → Option Reason
  | Arg.reason a => some a
  | _ => none

/-- The string an argument is, if it is one. -/
def Arg.asString : Arg → Option String
  | Arg.str a => some a
  | _ => none

/-- The error-shaped value an argument is, if it is one. -/
def Arg.asError : Arg → Option Held
  | Arg.err error.nil => none
  | Arg.err a => some (Held.value a)
  | Arg.nilError => some Held.nilPtr
  | _ => none

/-- The last `Reason` argument of the list, if there is one. -/
def lastReason (args : List Arg) : Option Reason :=
  (args.filterMap Arg.asReason).getLast?

/-- The last string argument of the list, if there is one. -/
def lastString (args : List Arg) : Option String :=
  (args.filterMap Arg.asString).getLast?

/-- The last error-shaped argument of the list, if there is one. -/
def lastErrorArg (args : List Arg) : Option Held :=
  (args.filterMap Arg.asError).getLast?

/-- The last error-shaped argument of the list, if there is one and it is an error value
(not a nil `*Error` pointer). -/
def lastError (args : List Arg) : Option error :=
  match lastErrorArg args with
  | some (Held.value a) => some a
  | _ => none

/-- An error value is a redundant `Error` when it is a `*Error` with empty message and
reason Unknown. -/
def isRedundantError : error → Bool
  | error.ptr r m _ => decide (m = "") && decide (r = UnknownReason)
  | _ => false

/-- The wrapped cause that the last error-shaped argument determines: absent when there is
no such argument, the argument's own wrapped cause when the argument is a redundant `Error`,
and the argument itself otherwise. -/
def causeFrom : Option error → error
  | none => error.nil
  | some w => if isRedundantError w then unwrap w else w

/-- The error values of the closed world of the constructor: a foreign error that wraps
nothing, or the `Error` that `E` returns on an argument list whose error-shaped arguments
are all of the closed world (its reasons and strings are arbitrary). -/
inductive Closed : error → Prop where
  | foreign (text : String) : Closed (error.foreign text error.nil)
  | built (args : List Arg) (e : errors.Error)
      (hcauses : ∀ w : error, Arg.err w ∈ args → Closed w) (hE : E args = some e) :
      Closed e.toError

/-- Reading one character of a decimal rendering: a minus sign sets the sign, any other
character is taken as a decimal digit appended to the magnitude read so far. -/
def readChar (st : Bool × Nat) (c : Char) : Bool × Nat :=
  if c = '-' then (true, st.2) else (st.1, 10 * st.2 + (c.toNat - 48))

/-- Reading a decimal rendering back: whether it has a minus sign, and its magnitude. -/
def readDecimal (s : String) : Bool × Nat :=
  s.data.foldl readChar (false, 0)

/-- The sign and magnitude of an integer. -/
def signMagnitude (n : Int) : Bool × Nat :=
  (decide (n < 0), n.natAbs)

end errors

namespace errors

/-! ## Auxiliary lemmas -/

theorem Reason.String_of_not_named (r : Reason) (h : r ∉ namedReasons) :
    Reason.String r = "unknown (" ++ fmtD r ++ ")" := by
  simp only [namedReasons, List.mem_cons, List.mem_singleton, List.not_mem_nil, or_false,
    not_or] at h
  obtain ⟨h0, h1, h2, h3, h4, h5, h6⟩ := h
  simp [Reason.String, h0, h1, h2, h3, h4, h5, h6]

theorem Reason.StatusReason_of_not_named (r : Reason) (h : r ∉ namedReasons) :
    Reason.StatusReason r = metav1.StatusReasonInternalError := by
  simp only [namedReasons, List.mem_cons, List.mem_singleton, List.not_mem_nil, or_false,
    not_or] at h
  obtain ⟨h0, h1, h2, h3, h4, h5, h6⟩ := h
  simp [Reason.StatusReason, h0, h1, h2, h3, h4, h5, h6]

theorem Reason.Code_of_not_named (r : Reason) (h : r ∉ namedReasons) :
    Reason.Code r = http.StatusInternalServerError := by
  simp only [namedReasons, List.mem_cons, List.mem_singleton, List.not_mem_nil, or_false,
    not_or] at h
  obtain ⟨h0, h1, h2, h3, h4, h5, h6⟩ := h
  simp [Reason.Code, h0, h1, h2, h3, h4, h5, h6]

theorem not_named_iff (r : Int) : r ∉ namedReasons ↔ (r < 0 ∨ 6 < r) := by
  simp only [namedReasons, List.mem_cons, List.mem_singleton, List.not_mem_nil, or_false,
    not_or, UnknownReason, Invalid, Unauthorized, NotFound, Conflict, Internal, NotImplemented]
  show (¬(r : Int) = 0 ∧ ¬(r : Int) = 1 ∧ ¬(r : Int) = 2 ∧ ¬(r : Int) = 3 ∧ ¬(r : Int) = 4
    ∧ ¬(r : Int) = 5 ∧ ¬(r : Int) = 6) ↔ ((r : Int) < 0 ∨ 6 < (r : Int))
  omega

/-- The loop of `StatusDetails` appends one entry per link, in chain order. -/
theorem StatusDetails_loop_eq (err : error) (causes : List metav1.StatusCause) :
    Error.StatusDetails.loop err causes
      = causes ++ (chain err).map (fun l => { Message := l.text }) := by
  induction err generalizing causes with
  | nil => simp [Error.StatusDetails.loop, chain]
  | ptr r m w ih =>
      simp [Error.StatusDetails.loop, chain, ih, Error.Error, Link.text]
  | foreign t w ih =>
      simp [Error.StatusDetails.loop, chain, ih, Link.text]

theorem causesOf_StatusDetails (e : errors.Error) :
    causesOf (Error.StatusDetails e) = (chain e.Err).map (fun l => { Message := l.text }) := by
  unfold Error.StatusDetails causesOf
  simp only [StatusDetails_loop_eq, List.nil_append]
  cases h : chain e.Err with
  | nil => simp
  | cons l ls => simp

/-! ### The loop of the constructor -/

theorem getLast?_filterMap_cons_getD {α β : Type} (f : α → Option β) (a : α) (l : List α)
    (d : β) :
    (((a :: l).filterMap f).getLast?).getD d = ((l.filterMap f).getLast?).getD ((f a).getD d) := by
  cases h : f a with
  | none => simp [List.filterMap_cons, h]
  | some b =>
      simp only [List.filterMap_cons, h, Option.getD_some]
      cases h2 : l.filterMap f with
      | nil => simp
      | cons c cs =>
          obtain ⟨x, hx⟩ : ∃ x, (b :: c :: cs).getLast? = some x :=
            ⟨_, List.getLast?_eq_getLast _ (by simp)⟩
          have hx2 : (c :: cs).getLast? = some x := by
            rw [← hx, List.getLast?_cons_cons]
          simp [hx2, List.getLast?_cons_cons]

theorem E_step_eq_none_iff (e : Draft) (a : Arg) :
    E.step e a = none ↔ a.recognised = false := by
  cases a with
  | reason r => simp [E.step, Arg.recognised]
  | str m => simp [E.step, Arg.recognised]
  | err w => cases w <;> simp [E.step, Arg.recognised]
  | nilError => simp [E.step, Arg.recognised]
  | other => simp [E.step, Arg.recognised]

theorem E_step_fields (e e1 : Draft) (a : Arg) (h : E.step e a = some e1) :
    e1.Reason = (a.asReason).getD e.Reason ∧ e1.Message = (a.asString).getD e.Message
      ∧ e1.Err = (a.asError).getD e.Err := by
  cases a with
  | reason r =>
      simp only [E.step, Option.some.injEq] at h
      subst h
      simp [Arg.asReason, Arg.asString, Arg.asError]
  | str m =>
      simp only [E.step, Option.some.injEq] at h
      subst h
      simp [Arg.asReason, Arg.asString, Arg.asError]
  | err w =>
      cases w with
      | nil => simp [E.step] at h
      | ptr r m x =>
          simp only [E.step, Option.some.injEq] at h
          subst h
          simp [Arg.asReason, Arg.asString, Arg.asError]
      | foreign t x =>
          simp only [E.step, Option.some.injEq] at h
          subst h
          simp [Arg.asReason, Arg.asString, Arg.asError]
  | nilError =>
      simp only [E.step, Option.some.injEq] at h
      subst h
      simp [Arg.asReason, Arg.asString, Arg.asError]
  | other => simp [E.step] at h

theorem E_loop_eq_none_iff (args : List Arg) (e : Draft) :
    E.loop args e = none ↔ ∃ a ∈ args, a.recognised = false := by
  induction args generalizing e with
  | nil => simp [E.loop]
  | cons a rest ih =>
      cases hs : E.step e a with
      | none =>
          have hr := (E_step_eq_none_iff e a).1 hs
          simp [E.loop, hs, hr]
      | some e1 =>
          have hr : a.recognised = true := by
            cases hb : a.recognised with
            | true => rfl
            | false => rw [(E_step_eq_none_iff e a).2 hb] at hs; cases hs
          simp [E.loop, hs, ih e1, hr]

theorem E_loop_fields (args : List Arg) (e0 e : Draft) (h : E.loop args e0 = some e) :
    e.Reason = (lastReason args).getD e0.Reason ∧ e.Message = (lastString args).getD e0.Message
      ∧ e.Err = (lastErrorArg args).getD e0.Err := by
  induction args generalizing e0 with
  | nil =>
      simp only [E.loop, Option.some.injEq] at h
      subst h
      simp [lastReason, lastString, lastErrorArg]
  | cons a rest ih =>
      cases hs : E.step e0 a with
      | none => simp [E.loop, hs] at h
      | some e1 =>
          simp only [E.loop, hs] at h
          obtain ⟨h1, h2, h3⟩ := ih e1 h
          obtain ⟨s1, s2, s3⟩ := E_step_fields e0 e1 a hs
          unfold lastReason lastString lastErrorArg at *
          rw [getLast?_filterMap_cons_getD, getLast?_filterMap_cons_getD,
            getLast?_filterMap_cons_getD, ← s1, ← s2, ← s3]
          exact ⟨h1, h2, h3⟩

theorem E_compress_nilPtr (r : Reason) (m : String) :
    E.compress { Reason := r, Message := m, Err := Held.nilPtr } = none :=
  rfl

theorem E_compress_value (r0 : Reason) (m0 : String) (a : error) :
    E.compress { Reason := r0, Message := m0, Err := Held.value a }
      = some { Reason := r0, Message := m0,
               Err := if isRedundantError a then unwrap a else a } := by
  cases a with
  | nil => simp [E.compress, isRedundantError]
  | ptr r m w =>
      by_cases hr : Error.IsRedundant ⟨r, m, w⟩ = true
      · have hr2 := hr
        simp only [Error.IsRedundant, Bool.and_eq_true, beq_iff_eq] at hr2
        obtain ⟨hm, hrr⟩ := hr2
        subst hm
        subst hrr
        simp [E.compress, hr, isRedundantError, unwrap, Error.Unwrap]
      · have hr2 := hr
        simp only [Error.IsRedundant, Bool.and_eq_true, beq_iff_eq] at hr2
        have hr3 : (decide (m = "") && decide (r = UnknownReason)) = false := by
          simpa using hr2
        simp [E.compress, hr, isRedundantError, hr3]
  | foreign t w => simp [E.compress, isRedundantError]

theorem lastError_eq_some_iff (args : List Arg) (w : error) :
    lastError args = some w ↔ lastErrorArg args = some (Held.value w) := by
  unfold lastError
  cases h : lastErrorArg args with
  | none => simp
  | some x => cases x <;> simp

theorem causeFrom_eq (o : Option error) :
    causeFrom o
      = if isRedundantError (o.getD error.nil) then unwrap (o.getD error.nil)
        else o.getD error.nil := by
  cases o with
  | none => simp [causeFrom, isRedundantError]
  | some w => simp [causeFrom]

/-- What `E` returns: it returns no `Error` on the empty list, on a list with an argument of
no recognised shape and on a list whose last error-shaped argument is a nil `*Error` pointer,
and otherwise returns the record assembled from the last argument of each kind. -/
theorem E_eq_some_iff (args : List Arg) (e : errors.Error) :
    E args = some e ↔
      args ≠ [] ∧ (∀ a ∈ args, a.recognised = true) ∧ lastErrorArg args ≠ some Held.nilPtr ∧
        e = { Reason := (lastReason args).getD UnknownReason
              Message := (lastString args).getD ""
              Err := causeFrom (lastError args) } := by
  unfold E
  by_cases hl : args.length = 0
  · have : args = [] := List.length_eq_zero.1 hl
    simp [this]
  · have hne : args ≠ [] := fun h => hl (by simp [h])
    simp only [hl, if_false]
    cases hloop : E.loop args {} with
    | none =>
        obtain ⟨a, ha, hr⟩ := (E_loop_eq_none_iff args {}).1 hloop
        constructor
        · intro h; cases h
        · rintro ⟨_, hall, _⟩
          rw [hall a ha] at hr
          cases hr
    | some e1 =>
        have hall : ∀ a ∈ args, a.recognised = true := by
          intro a ha
          cases hb : a.recognised with
          | true => rfl
          | false =>
              have := (E_loop_eq_none_iff args {}).2 ⟨a, ha, hb⟩
              rw [this] at hloop
              cases hloop
        obtain ⟨h1, h2, h3⟩ := E_loop_fields args {} e1 hloop
        obtain ⟨r1, m1, x1⟩ := e1
        simp only at h1 h2 h3
        subst h1
        subst h2
        show E.compress _ = some e ↔ _
        cases hlast : lastErrorArg args with
        | none =>
            have hx : x1 = Held.value error.nil := by rw [h3, hlast]; rfl
            have hle : lastError args = none := by unfold lastError; rw [hlast]
            rw [hx, E_compress_value, hle]
            simp only [Option.some.injEq]
            constructor
            · intro h
              exact ⟨hne, hall, by simp, by rw [← h]; rfl⟩
            · rintro ⟨_, _, _, h⟩
              rw [h]
              rfl
        | some x =>
            cases x with
            | nilPtr =>
                have hx : x1 = Held.nilPtr := by rw [h3, hlast]; rfl
                rw [hx, E_compress_nilPtr]
                constructor
                · intro h; cases h
                · rintro ⟨_, _, h, _⟩
                  exact absurd rfl h
            | value w =>
                have hx : x1 = Held.value w := by rw [h3, hlast]; rfl
                have hle : lastError args = some w := by unfold lastError; rw [hlast]
                rw [hx, E_compress_value, hle]
                simp only [Option.some.injEq]
                constructor
                · intro h
                  exact ⟨hne, hall, by simp, by rw [← h]; rfl⟩
                · rintro ⟨_, _, _, h⟩
                  rw [h]
                  rfl

theorem error_ptr_ne (x : error) : ∀ (r : Reason) (m : String), error.ptr r m x ≠ x := by
  induction x with
  | nil => intro r m h; cases h
  | ptr r1 m1 x1 ih =>
      intro r m h
      injection h with h1 h2 h3
      exact ih r1 m1 h3
  | foreign t x1 _ => intro r m h; cases h

theorem chain_eq_unwrap (w : error) :
    chain w = [] ∧ w = error.nil ∨
      ∃ l, chain w = l :: chain (unwrap w) ∧ l.redundant = isRedundantError w := by
  cases w with
  | nil => exact Or.inl ⟨rfl, rfl⟩
  | ptr r m x => exact Or.inr ⟨Link.structured r m, rfl, rfl⟩
  | foreign t x => exact Or.inr ⟨Link.foreign t, rfl, rfl⟩

theorem isRedundantError_toError (we : errors.Error) :
    isRedundantError we.toError = Error.IsRedundant we := by
  obtain ⟨r, m, x⟩ := we
  simp only [Error.toError, isRedundantError, Error.IsRedundant]
  by_cases hm : m = "" <;> by_cases hr : r = UnknownReason <;> simp [hm, hr]

theorem IsRedundant_iff (we : errors.Error) :
    Error.IsRedundant we = true ↔ we.Message = "" ∧ we.Reason = UnknownReason := by
  simp [Error.IsRedundant]

/-! ## The claims -/

/-- Claim C1: for each of the seven named Reason values, `String`, `StatusReason` and `Code`
return exactly the row of the table: Unknown gives "unknown", InternalError, 500; Invalid
gives "invalid", BadRequest, 400; Unauthorized gives "unauthorized", Unauthorized, 401;
NotFound gives "not found", NotFound, 404; Conflict gives "conflict", Conflict, 409;
Internal gives "internal", InternalError, 500; NotImplemented gives "not implemented",
InternalError, 501. -/
theorem reason_table :
    (Reason.String UnknownReason = "unknown"
        ∧ Reason.StatusReason UnknownReason = metav1.StatusReasonInternalError
        ∧ Reason.Code UnknownReason = 500)
      ∧ (Reason.String Invalid = "invalid"
        ∧ Reason.StatusReason Invalid = metav1.StatusReasonBadRequest
        ∧ Reason.Code Invalid = 400)
      ∧ (Reason.String Unauthorized = "unauthorized"
        ∧ Reason.StatusReason Unauthorized = metav1.StatusReasonUnauthorized
        ∧ Reason.Code Unauthorized = 401)
      ∧ (Reason.String NotFound = "not found"
        ∧ Reason.StatusReason NotFound = metav1.StatusReasonNotFound
        ∧ Reason.Code NotFound = 404)
      ∧ (Reason.String Conflict = "conflict"
        ∧ Reason.StatusReason Conflict = metav1.StatusReasonConflict
        ∧ Reason.Code Conflict = 409)
      ∧ (Reason.String Internal = "internal"
        ∧ Reason.StatusReason Internal = metav1.StatusReasonInternalError
        ∧ Reason.Code Internal = 500)
      ∧ (Reason.String NotImplemented = "not implemented"
        ∧ Reason.StatusReason NotImplemented = metav1.StatusReasonInternalError
        ∧ Reason.Code NotImplemented = 501) := by
  decide

/-- Claim C2: when `E` accepts the argument list and the last error-shaped argument `w` is an
`Error` with empty message and reason Unknown, the wrapped cause of the returned `Error` is
`w`'s own wrapped cause (nil when `w` wraps nothing) and is not `w`; the splice happens once:
a wrapped cause of `w` that is itself a redundant `Error` is kept as the wrapped cause; the
reason and the message are the ones assembled from the arguments. -/
theorem E_splices_redundant_cause (args : List Arg) (e w : errors.Error)
    (hE : E args = some e) (hw : lastError args = some w.toError)
    (hm : w.Message = "") (hr : w.Reason = UnknownReason) :
    e.Err = w.Err ∧ Error.Unwrap e = Error.Unwrap w ∧ e.Err ≠ w.toError
      ∧ (w.Err = error.nil → e.Err = error.nil)
      ∧ (∀ inner : errors.Error, w.Err = inner.toError → Error.IsRedundant inner = true →
          e.Err = inner.toError ∧ isRedundantError e.Err = true)
      ∧ e.Reason = (lastReason args).getD UnknownReason
      ∧ e.Message = (lastString args).getD "" := by
  obtain ⟨_, _, _, he⟩ := (E_eq_some_iff args e).1 hE
  have hred : isRedundantError w.toError = true := by
    rw [isRedundantError_toError]
    exact (IsRedundant_iff w).2 ⟨hm, hr⟩
  have hErr : e.Err = w.Err := by
    rw [he, hw]
    show (if isRedundantError w.toError = true then unwrap w.toError else w.toError) = w.Err
    rw [if_pos hred]
    rfl
  refine ⟨hErr, hErr, ?_, ?_, ?_, ?_, ?_⟩
  · rw [hErr]
    exact fun h => error_ptr_ne w.Err w.Reason w.Message h.symm
  · intro h; rw [hErr, h]
  · intro inner hin hri
    rw [hErr, hin]
    exact ⟨rfl, by rw [isRedundantError_toError]; exact hri⟩
  · rw [he]
  · rw [he]

/-- Witness of C2: `E(Internal, "wrapping", w)` with `w` an empty `Error` that wraps an empty
`Error` that wraps a foreign error. -/
theorem E_splices_redundant_cause_witness :
    E [Arg.reason Internal, Arg.str "wrapping",
        Arg.err (error.ptr UnknownReason ""
          (error.ptr UnknownReason "" (error.foreign "disk full" error.nil)))]
      = some ⟨Internal, "wrapping",
          error.ptr UnknownReason "" (error.foreign "disk full" error.nil)⟩
      ∧ (⟨Internal, "wrapping",
          error.ptr UnknownReason "" (error.foreign "disk full" error.nil)⟩ : errors.Error).Err
        = error.ptr UnknownReason "" (error.foreign "disk full" error.nil) :=
  ⟨by decide,
    (E_splices_redundant_cause
      [Arg.reason Internal, Arg.str "wrapping",
        Arg.err (error.ptr UnknownReason ""
          (error.ptr UnknownReason "" (error.foreign "disk full" error.nil)))]
      ⟨Internal, "wrapping", error.ptr UnknownReason "" (error.foreign "disk full" error.nil)⟩
      ⟨UnknownReason, "", error.ptr UnknownReason "" (error.foreign "disk full" error.nil)⟩
      (by decide) (by decide) rfl rfl).1⟩

/-- Claim C3: for every `Error` `e` (its cause chain is finite, as every chain of the
embedding), the causes list produced by `StatusDetails`, which is the one carried in
`Status().Details`, has exactly one entry per link of the chain that starts at the direct
wrapped cause of `e`: as many entries as links, in chain order, the i-th entry holding the
display text of the i-th link.  The record `e` contributes no entry of its own: the texts
of the chain that starts at `e` itself are the display text of `e` followed by the texts of
the causes list. -/
theorem StatusDetails_causes_follow_chain (e : errors.Error) :
    causesOf (Error.StatusDetails e) = (chain e.Err).map (fun l => { Message := l.text })
      ∧ (Error.Status e).Details = Error.StatusDetails e
      ∧ (causesOf (Error.StatusDetails e)).length = (chain e.Err).length
      ∧ (∀ i : Nat, ((causesOf (Error.StatusDetails e))[i]?).map (fun c => c.Message)
            = ((chain e.Err)[i]?).map Link.text)
      ∧ chain e.toError = Link.structured e.Reason e.Message :: chain e.Err
      ∧ (chain e.toError).map Link.text
          = Error.Error e :: (causesOf (Error.StatusDetails e)).map (fun c => c.Message) := by
  have h := causesOf_StatusDetails e
  refine ⟨h, rfl, ?_, ?_, rfl, ?_⟩
  · rw [h, List.length_map]
  · intro i
    rw [h, List.getElem?_map, Option.map_map]
    rfl
  · rw [h, List.map_map]
    rfl

/-- Claim C4: for every `Error` `e`, `Status()` returns a status whose failure indicator is
"Failure", whose message is the message of `e`, whose reason is `StatusReason` of the reason
of `e`, whose code is `Code` of the reason of `e` and whose details are `StatusDetails` of
`e`; the first four do not change when the wrapped cause of `e` is replaced by any other,
while the details do depend on it. -/
theorem Status_fields (e : errors.Error) :
    (Error.Status e).Status = "Failure"
      ∧ (Error.Status e).Message = e.Message
      ∧ (Error.Status e).Reason = Reason.StatusReason e.Reason
      ∧ (Error.Status e).Code = Reason.Code e.Reason
      ∧ (Error.Status e).Details = Error.StatusDetails e
      ∧ (∀ c : error,
          (Error.Status { e with Err := c }).Status = (Error.Status e).Status
            ∧ (Error.Status { e with Err := c }).Message = (Error.Status e).Message
            ∧ (Error.Status { e with Err := c }).Reason = (Error.Status e).Reason
            ∧ (Error.Status { e with Err := c }).Code = (Error.Status e).Code)
      ∧ (Error.Status { e with Err := error.nil }).Details
          ≠ (Error.Status { e with Err := error.foreign "cause" error.nil }).Details := by
  refine ⟨rfl, rfl, rfl, rfl, rfl, fun c => ⟨rfl, rfl, rfl, rfl⟩, ?_⟩
  simp [Error.Status, Error.StatusDetails, Error.StatusDetails.loop]

/-- Counterexample to C5: `E(Internal, "failed", p)` with `p` a nil `*Error` pointer is a call
on a non-empty list whose arguments are a `Reason`, a string and an error-shaped value, and
it returns no `Error`: the type switch takes `p` by `case error` and `wrapped.IsRedundant()`
reads through the nil pointer.  The claimed equivalence fails there.  Were `p` counted as an
argument of no recognised shape instead, the equivalence would fail at `E(p, x)` for a
foreign error `x`, which returns an `Error`. -/
theorem E_aborts_iff_counterexample :
    E [Arg.reason Internal, Arg.str "failed", Arg.nilError] = none
      ∧ [Arg.reason Internal, Arg.str "failed", Arg.nilError] ≠ []
      ∧ (∀ a ∈ [Arg.reason Internal, Arg.str "failed", Arg.nilError], a.recognised = true)
      ∧ ¬ (E [Arg.reason Internal, Arg.str "failed", Arg.nilError] = none
            ↔ ([Arg.reason Internal, Arg.str "failed", Arg.nilError] = []
                ∨ ∃ a ∈ [Arg.reason Internal, Arg.str "failed", Arg.nilError],
                    a.recognised = false))
      ∧ E [Arg.nilError, Arg.err (error.foreign "x" error.nil)]
          = some ⟨UnknownReason, "", error.foreign "x" error.nil⟩ := by
  decide

/-- Claim C5, amended: `E` returns an `Error` if and only if its argument list is not empty,
every argument is a `Reason`, a string or an error-shaped value, and the last error-shaped
argument is not a nil `*Error` pointer.  It returns none exactly when the list is empty, or
holds an argument of no recognised shape, or ends its error-shaped arguments with a nil
`*Error` pointer; the loop with its `klog.Fatalf` fails exactly on an argument of no
recognised shape. -/
theorem E_returns_no_Error_iff (args : List Arg) :
    (E args = none ↔
        (args = [] ∨ (∃ a ∈ args, a.recognised = false)
          ∨ lastErrorArg args = some Held.nilPtr))
      ∧ ((∃ e, E args = some e) ↔
          (args ≠ [] ∧ (∀ a ∈ args, a.recognised = true)
            ∧ lastErrorArg args ≠ some Held.nilPtr))
      ∧ (E.loop args {} = none ↔ ∃ a ∈ args, a.recognised = false) := by
  have hsome : (∃ e, E args = some e) ↔
      (args ≠ [] ∧ (∀ a ∈ args, a.recognised = true)
        ∧ lastErrorArg args ≠ some Held.nilPtr) := by
    constructor
    · rintro ⟨e, he⟩
      obtain ⟨h1, h2, h3, _⟩ := (E_eq_some_iff args e).1 he
      exact ⟨h1, h2, h3⟩
    · rintro ⟨h1, h2, h3⟩
      exact ⟨_, (E_eq_some_iff args _).2 ⟨h1, h2, h3, rfl⟩⟩
  refine ⟨⟨?_, ?_⟩, hsome, E_loop_eq_none_iff args {}⟩
  · intro hnone
    by_contra hcon
    simp only [not_or] at hcon
    obtain ⟨c1, c2, c3⟩ := hcon
    have hall : ∀ a ∈ args, a.recognised = true := by
      intro a ha
      cases hb : a.recognised with
      | true => rfl
      | false => exact absurd ⟨a, ha, hb⟩ c2
    obtain ⟨e, he⟩ := hsome.2 ⟨c1, hall, c3⟩
    rw [hnone] at he
    cases he
  · intro h
    cases hE : E args with
    | none => rfl
    | some e =>
        obtain ⟨hne, hall, hnp, _⟩ := (E_eq_some_iff args e).1 hE
        rcases h with h | ⟨a, ha, hb⟩ | h
        · exact absurd h hne
        · rw [hall a ha] at hb
          cases hb
        · exact absurd h hnp

/-- Claim C6: on every non-empty argument list of recognised shapes on which `E` returns
(the last error-shaped argument is not a nil `*Error` pointer), the `Error` that `E` returns
has as reason the last `Reason` argument (Unknown when there is none), as message the last
string argument (the empty string when there is none) and as wrapped cause the one
determined by the last error-shaped argument alone (nil when there is none); earlier
arguments of a kind have no effect: two such lists with the same last argument of each kind
give the same result. -/
theorem E_last_of_each_kind (args : List Arg) (hne : args ≠ [])
    (hall : ∀ a ∈ args, a.recognised = true)
    (hnp : lastErrorArg args ≠ some Held.nilPtr) :
    ∃ e, E args = some e
      ∧ e.Reason = (lastReason args).getD UnknownReason
      ∧ e.Message = (lastString args).getD ""
      ∧ e.Err = causeFrom (lastError args)
      ∧ ∀ args2 : List Arg, args2 ≠ [] → (∀ a ∈ args2, a.recognised = true) →
          lastReason args2 = lastReason args → lastString args2 = lastString args →
          lastErrorArg args2 = lastErrorArg args → E args2 = some e := by
  refine ⟨_, (E_eq_some_iff args _).2 ⟨hne, hall, hnp, rfl⟩, rfl, rfl, rfl, ?_⟩
  intro args2 hne2 hall2 h1 h2 h3
  have h4 : lastError args2 = lastError args := by
    unfold lastError
    rw [h3]
  rw [← h1, ← h2, ← h4]
  exact (E_eq_some_iff args2 _).2 ⟨hne2, hall2, by rw [h3]; exact hnp, rfl⟩

/-- Witness of C6: `E(Invalid, "first", err1, NotFound, "second", err2)` keeps `NotFound`,
"second" and `err2`. -/
theorem E_last_of_each_kind_witness :
    ∃ e, E [Arg.reason Invalid, Arg.str "first", Arg.err (error.foreign "err1" error.nil),
            Arg.reason NotFound, Arg.str "second", Arg.err (error.foreign "err2" error.nil)]
          = some e
      ∧ e.Reason = NotFound ∧ e.Message = "second" ∧ e.Err = error.foreign "err2" error.nil :=
  have h := E_last_of_each_kind
    [Arg.reason Invalid, Arg.str "first", Arg.err (error.foreign "err1" error.nil),
      Arg.reason NotFound, Arg.str "second", Arg.err (error.foreign "err2" error.nil)]
    (by decide) (by decide) (by decide)
  h.elim fun e he => ⟨e, he.1, he.2.1, he.2.2.1, he.2.2.2.1⟩

/-- Claim C7: for every `Error` `e`, `Error()` returns the label of the reason of `e`
(`Reason.String`), then the two characters "; ", then the message of `e`; both parts are
always there, so with an empty message the text is the label followed by "; "; and the
wrapped cause has no part in the text, which is the same whatever `e` wraps. -/
theorem Error_text (e : errors.Error) :
    Error.Error e = Reason.String e.Reason ++ "; " ++ e.Message
      ∧ (Error.Error e).data = (Reason.String e.Reason).data ++ [(';' : Char), ' '] ++ e.Message.data
      ∧ Error.Error { e with Message := "" } = Reason.String e.Reason ++ "; "
      ∧ (Error.Error { e with Message := "" }).data.reverse.take 2 = [' ', ';']
      ∧ ∀ c : error, Error.Error { e with Err := c } = Error.Error e := by
  refine ⟨rfl, ?_, ?_, ?_, fun c => rfl⟩
  · simp [Error.Error, String.data_append]
  · simp [Error.Error]
  · simp [Error.Error, String.data_append]

/-- Claim C8: for every integer `N` that is not one of the seven named `Reason` values,
`String` returns "unknown (" followed by the decimal rendering of `N` followed by ")",
`StatusReason` returns InternalError and `Code` returns 500; the integers that are not named
are exactly the negative ones and those greater than 6.  The three functions are total. -/
theorem unnamed_reason_defaults (N : Int) (h : N ∉ namedReasons) :
    Reason.String N = "unknown (" ++ fmtD N ++ ")"
      ∧ Reason.StatusReason N = metav1.StatusReasonInternalError
      ∧ Reason.Code N = 500
      ∧ (N < 0 ∨ 6 < N)
      ∧ ∀ M : Int, M ∉ namedReasons ↔ (M < 0 ∨ 6 < M) :=
  ⟨Reason.String_of_not_named N h, Reason.StatusReason_of_not_named N h,
    Reason.Code_of_not_named N h, (not_named_iff N).1 h, not_named_iff⟩

/-- Witness of C8: the reason -3 renders as "unknown (-3)" and maps to InternalError and
500. -/
theorem unnamed_reason_defaults_witness :
    (-3 : Int) ∉ namedReasons
      ∧ Reason.String (-3) = "unknown (-3)"
      ∧ Reason.StatusReason (-3) = "InternalError"
      ∧ Reason.Code (-3) = 500 :=
  ⟨by decide, (unnamed_reason_defaults (-3) (by decide)).1,
    (unnamed_reason_defaults (-3) (by decide)).2.1,
    (unnamed_reason_defaults (-3) (by decide)).2.2.1⟩

/-- Counterexample to C9: `E(Internal, "wrapping", w)`, where `w` is an empty `Error` that
wraps another empty `Error`, is accepted, and the cause chain of the result holds a redundant
`Error`: the inner one, which the single splice leaves in place. -/
theorem E_chain_redundant_counterexample :
    E [Arg.reason Internal, Arg.str "wrapping",
        Arg.err (error.ptr UnknownReason "" (error.ptr UnknownReason "" error.nil))]
      = some ⟨Internal, "wrapping", error.ptr UnknownReason "" error.nil⟩
      ∧ ¬ (∀ l ∈ chain (⟨Internal, "wrapping", error.ptr UnknownReason "" error.nil⟩
              : errors.Error).Err, l.redundant = false) := by
  decide

/-- Claim C9, amended: when `E` accepts the argument list, the cause chain of the returned
`Error` contains no redundant `Error` node if and only if the chain strictly below the last
error-shaped argument (what is reached from that argument by unwrapping at least once)
contains none; with no error-shaped argument the chain is empty.  A redundant last
error-shaped argument is replaced by its own wrapped cause, any other is kept as it is. -/
theorem E_chain_redundant_iff (args : List Arg) (e : errors.Error) (hE : E args = some e) :
    ((∀ l ∈ chain e.Err, l.redundant = false)
        ↔ ∀ l ∈ chain (unwrap ((lastError args).getD error.nil)), l.redundant = false)
      ∧ (lastError args = none → chain e.Err = [])
      ∧ (∀ w, lastError args = some w → isRedundantError w = true → e.Err = unwrap w)
      ∧ (∀ w, lastError args = some w → isRedundantError w = false → e.Err = w) := by
  obtain ⟨_, _, _, he⟩ := (E_eq_some_iff args e).1 hE
  have hErr : e.Err = causeFrom (lastError args) := by rw [he]
  refine ⟨?_, ?_, ?_, ?_⟩
  · rw [hErr, causeFrom_eq]
    generalize (lastError args).getD error.nil = w
    by_cases hred : isRedundantError w = true
    · rw [if_pos hred]
    · rw [if_neg hred]
      rcases chain_eq_unwrap w with ⟨hnil, hw⟩ | ⟨l, hl, hlr⟩
      · subst hw
        simp [unwrap]
      · rw [hl]
        have hlf : l.redundant = false := by
          rw [hlr]
          simpa using hred
        simp [hlf]
  · intro hnone
    rw [hErr, hnone]
    rfl
  · intro w hw hred
    rw [hErr, hw]
    simp [causeFrom, hred]
  · intro w hw hred
    rw [hErr, hw]
    simp [causeFrom, hred]

/-- Witness of the amended C9: `E(NotFound, w)` with `w` an empty `Error` that wraps a
foreign error. -/
theorem E_chain_redundant_iff_witness :
    E [Arg.reason NotFound, Arg.err (error.ptr UnknownReason "" (error.foreign "eof" error.nil))]
      = some ⟨NotFound, "", error.foreign "eof" error.nil⟩
      ∧ ((∀ l ∈ chain (⟨NotFound, "", error.foreign "eof" error.nil⟩ : errors.Error).Err,
            l.redundant = false)
          ↔ ∀ l ∈ chain (unwrap ((lastError [Arg.reason NotFound,
              Arg.err (error.ptr UnknownReason "" (error.foreign "eof" error.nil))]).getD
                error.nil)), l.redundant = false) :=
  ⟨by decide,
    (E_chain_redundant_iff
      [Arg.reason NotFound, Arg.err (error.ptr UnknownReason "" (error.foreign "eof" error.nil))]
      ⟨NotFound, "", error.foreign "eof" error.nil⟩ (by decide)).1⟩

/-- Claim C10: when `E` accepts the argument list and the last error-shaped argument `w` is
not an `Error`, or is an `Error` that is not redundant (non-empty message or reason other
than Unknown), the wrapped cause of the returned `Error`, as `Unwrap` gives it, is `w`
itself; in particular `E(someErr)` for a plain error `someErr` is returned and wraps
`someErr`. -/
theorem E_keeps_informative_cause (args : List Arg) (e : errors.Error) (w : error)
    (hE : E args = some e) (hw : lastError args = some w)
    (hn : (∀ we : errors.Error, w ≠ we.toError)
      ∨ ∃ we : errors.Error, w = we.toError ∧ (we.Message ≠ "" ∨ we.Reason ≠ UnknownReason)) :
    Error.Unwrap e = w
      ∧ e.Err = w
      ∧ ∀ (text : String) (next : error),
          E [Arg.err (error.foreign text next)]
            = some ⟨UnknownReason, "", error.foreign text next⟩
          ∧ Error.Unwrap ⟨UnknownReason, "", error.foreign text next⟩
            = error.foreign text next := by
  obtain ⟨_, _, _, he⟩ := (E_eq_some_iff args e).1 hE
  have hred : isRedundantError w = false := by
    rcases hn with hn | ⟨we, hwe, hinfo⟩
    · cases w with
      | nil => rfl
      | ptr r m x => exact absurd rfl (hn ⟨r, m, x⟩)
      | foreign t x => rfl
    · rw [hwe, isRedundantError_toError]
      cases hb : Error.IsRedundant we with
      | false => rfl
      | true =>
          obtain ⟨h1, h2⟩ := (IsRedundant_iff we).1 hb
          rcases hinfo with h | h
          · exact absurd h1 h
          · exact absurd h2 h
  have hErr : e.Err = w := by
    rw [he, hw]
    simp [causeFrom, hred]
  refine ⟨hErr, hErr, fun text next => ⟨?_, rfl⟩⟩
  exact (E_eq_some_iff _ _).2 ⟨by simp, by simp [Arg.recognised],
    by simp [lastErrorArg, Arg.asError], by
    simp [lastReason, lastString, lastError, lastErrorArg, Arg.asReason, Arg.asString,
      Arg.asError, causeFrom, isRedundantError]⟩

/-- Witness of C10: `E(Internal, "wrapping", inner)` with `inner` the informative `Error`
with reason `NotFound` and message "missing". -/
theorem E_keeps_informative_cause_witness :
    E [Arg.reason Internal, Arg.str "wrapping", Arg.err (error.ptr NotFound "missing" error.nil)]
      = some ⟨Internal, "wrapping", error.ptr NotFound "missing" error.nil⟩
      ∧ Error.Unwrap ⟨Internal, "wrapping", error.ptr NotFound "missing" error.nil⟩
        = error.ptr NotFound "missing" error.nil :=
  ⟨by decide,
    (E_keeps_informative_cause
      [Arg.reason Internal, Arg.str "wrapping",
        Arg.err (error.ptr NotFound "missing" error.nil)]
      ⟨Internal, "wrapping", error.ptr NotFound "missing" error.nil⟩
      (error.ptr NotFound "missing" error.nil) (by decide) (by decide)
      (Or.inr ⟨⟨NotFound, "missing", error.nil⟩, rfl, Or.inl (by decide)⟩)).1⟩

/-! ## Further auxiliary lemmas -/

theorem chain_eq_nil_iff (w : error) : chain w = [] ↔ w = error.nil := by
  cases w <;> simp [chain]

theorem StatusDetails_eq (e : errors.Error) :
    Error.StatusDetails e
      = if chain e.Err = [] then none
        else some { Causes := (chain e.Err).map (fun l => { Message := l.text }) } := by
  unfold Error.StatusDetails
  simp only [StatusDetails_loop_eq, List.nil_append]
  cases h : chain e.Err with
  | nil => simp
  | cons l ls => simp

/-- Claim C11: for every `Error` `e`, the details of `Status()` are absent (nil, and never a
present object with an empty causes list) if and only if `e` has no wrapped cause; when `e`
has a wrapped cause the details are present and their causes list is not empty. -/
theorem Status_details_absent_iff (e : errors.Error) :
    ((Error.Status e).Details = none ↔ e.Err = error.nil)
      ∧ (Error.StatusDetails e = none ↔ e.Err = error.nil)
      ∧ (Error.Status e).Details ≠ some { Causes := [] }
      ∧ (e.Err ≠ error.nil →
          ∃ d, (Error.Status e).Details = some d ∧ d.Causes ≠ [] ∧ 0 < d.Causes.length) := by
  have hd : (Error.Status e).Details = Error.StatusDetails e := rfl
  have hiff : Error.StatusDetails e = none ↔ e.Err = error.nil := by
    rw [StatusDetails_eq, ← chain_eq_nil_iff]
    by_cases h : chain e.Err = [] <;> simp [h]
  refine ⟨by rw [hd]; exact hiff, hiff, ?_, ?_⟩
  · rw [hd, StatusDetails_eq]
    by_cases h : chain e.Err = []
    · simp [h]
    · simp [h]
  · intro hne
    have hc : chain e.Err ≠ [] := fun h => hne ((chain_eq_nil_iff _).1 h)
    refine ⟨{ Causes := (chain e.Err).map (fun l => { Message := l.text }) }, ?_, ?_, ?_⟩
    · rw [hd, StatusDetails_eq, if_neg hc]
    · simpa using hc
    · simpa [List.length_pos] using hc

/-! ### Calls of the constructor on short argument lists -/

theorem Arg.recognised_err (x : error) (hx : x ≠ error.nil) :
    (Arg.err x).recognised = true := by
  cases x with
  | nil => exact absurd rfl hx
  | ptr r m w => rfl
  | foreign t w => rfl

theorem Arg.asError_err (x : error) (hx : x ≠ error.nil) :
    (Arg.err x).asError = some (Held.value x) := by
  cases x with
  | nil => exact absurd rfl hx
  | ptr r m w => rfl
  | foreign t w => rfl

theorem E_reason_str (r : Reason) (m : String) :
    E [Arg.reason r, Arg.str m] = some ⟨r, m, error.nil⟩ :=
  (E_eq_some_iff _ _).2 ⟨by simp, by simp [Arg.recognised],
    by simp [lastErrorArg, Arg.asError], by
    simp [lastReason, lastString, lastError, lastErrorArg, Arg.asReason, Arg.asString,
      Arg.asError, causeFrom]⟩

theorem E_str (m : String) : E [Arg.str m] = some ⟨UnknownReason, m, error.nil⟩ :=
  (E_eq_some_iff _ _).2 ⟨by simp, by simp [Arg.recognised],
    by simp [lastErrorArg, Arg.asError], by
    simp [lastReason, lastString, lastError, lastErrorArg, Arg.asReason, Arg.asString,
      Arg.asError, causeFrom]⟩

theorem E_err (x : error) (hx : x ≠ error.nil) :
    E [Arg.err x] = some ⟨UnknownReason, "", causeFrom (some x)⟩ :=
  (E_eq_some_iff _ _).2 ⟨by simp, by simp [Arg.recognised_err x hx],
    by simp [lastErrorArg, Arg.asError_err x hx], by
    simp [lastReason, lastString, lastError, lastErrorArg, Arg.asReason, Arg.asString,
      Arg.asError_err x hx]⟩

theorem E_reason_str_err (r : Reason) (m : String) (x : error) (hx : x ≠ error.nil) :
    E [Arg.reason r, Arg.str m, Arg.err x] = some ⟨r, m, causeFrom (some x)⟩ :=
  (E_eq_some_iff _ _).2 ⟨by simp, by simp [Arg.recognised, Arg.recognised_err x hx],
    by simp [lastErrorArg, Arg.asError, Arg.asError_err x hx], by
    simp [lastReason, lastString, lastError, lastErrorArg, Arg.asReason, Arg.asString,
      Arg.asError, Arg.asError_err x hx]⟩

theorem Status_Details (e : errors.Error) :
    (Error.Status e).Details = Error.StatusDetails e :=
  rfl

theorem toError_ne_nil (e : errors.Error) : e.toError ≠ error.nil := by
  intro h
  cases h

theorem causeFrom_toError (w : errors.Error) :
    causeFrom (some w.toError) = if Error.IsRedundant w then w.Err else w.toError := by
  show (if isRedundantError w.toError = true then unwrap w.toError else w.toError) = _
  rw [isRedundantError_toError]
  rfl

theorem causesOf_StatusDetails_toError (r : Reason) (m : String) (w : errors.Error) :
    causesOf (Error.StatusDetails ⟨r, m, w.toError⟩)
      = { Message := Error.Error w } :: causesOf (Error.StatusDetails w) := by
  rw [causesOf_StatusDetails, causesOf_StatusDetails]
  rfl

/-- Claim C12: for every inner `Error` built as `E(r1, m1)` that is not redundant (`r1` other
than Unknown, or `m1` not empty) and every reason `r2` and message `m2`, the status of
`outer = E(r2, m2, inner)` has a causes list with exactly one entry, whose text is the display
text of `inner`, the label of `r1` followed by "; " and `m1`. -/
theorem Status_causes_of_wrapped_once (r1 r2 : Reason) (m1 m2 : String)
    (h : r1 ≠ UnknownReason ∨ m1 ≠ "") :
    ∃ inner outer : errors.Error,
      E [Arg.reason r1, Arg.str m1] = some inner
        ∧ E [Arg.reason r2, Arg.str m2, Arg.err inner.toError] = some outer
        ∧ (Error.Status outer).Details
            = some { Causes := [{ Message := Reason.String r1 ++ "; " ++ m1 }] }
        ∧ (causesOf (Error.Status outer).Details).length = 1
        ∧ Error.Error inner = Reason.String r1 ++ "; " ++ m1 := by
  have hnr : Error.IsRedundant ⟨r1, m1, error.nil⟩ = false := by
    cases hb : Error.IsRedundant ⟨r1, m1, error.nil⟩ with
    | false => rfl
    | true =>
        obtain ⟨hm, hr⟩ := (IsRedundant_iff _).1 hb
        rcases h with h | h
        · exact absurd hr h
        · exact absurd hm h
  have hout : E [Arg.reason r2, Arg.str m2, Arg.err (Error.toError ⟨r1, m1, error.nil⟩)]
      = some ⟨r2, m2, Error.toError ⟨r1, m1, error.nil⟩⟩ := by
    rw [E_reason_str_err r2 m2 _ (toError_ne_nil _), causeFrom_toError, hnr]
    rfl
  refine ⟨⟨r1, m1, error.nil⟩, ⟨r2, m2, Error.toError ⟨r1, m1, error.nil⟩⟩,
    E_reason_str r1 m1, hout, ?_, ?_, rfl⟩
  · rw [Status_Details, StatusDetails_eq]
    simp [Error.toError, chain, Link.text]
  · rw [Status_Details, causesOf_StatusDetails]
    simp [Error.toError, chain]

/-- Witness of C12: `inner := E(NotFound, "missing")` and
`outer := E(Internal, "wrapping", inner)`; the single cause is "not found; missing". -/
theorem Status_causes_of_wrapped_once_witness :
    (NotFound ≠ UnknownReason ∨ "missing" ≠ "")
      ∧ ∃ inner outer : errors.Error,
          E [Arg.reason NotFound, Arg.str "missing"] = some inner
            ∧ E [Arg.reason Internal, Arg.str "wrapping", Arg.err inner.toError] = some outer
            ∧ (Error.Status outer).Details
                = some { Causes := [{ Message := "not found; missing" }] }
            ∧ (causesOf (Error.Status outer).Details).length = 1
            ∧ Error.Error inner = "not found; missing" :=
  ⟨Or.inl (by decide),
    Status_causes_of_wrapped_once NotFound Internal "missing" "wrapping" (Or.inl (by decide))⟩

/-- Claim C13: for every reason `r` and message `m`, `E(r, m)` is returned and displays as
the label of `r`, then "; ", then `m`; for every message `m`, `E(m)` is returned and displays
as "unknown; " followed by `m`, the reason defaulting to Unknown; `E(Invalid, "bad field")`
displays as "invalid; bad field" and `E("only message")` as "unknown; only message". -/
theorem E_display_text (r : Reason) (m : String) :
    (E [Arg.reason r, Arg.str m]).map Error.Error = some (Reason.String r ++ "; " ++ m)
      ∧ (E [Arg.str m]).map Error.Error = some ("unknown; " ++ m)
      ∧ (E [Arg.str m]).map (fun e => e.Reason) = some UnknownReason
      ∧ (E [Arg.reason Invalid, Arg.str "bad field"]).map Error.Error
          = some "invalid; bad field"
      ∧ (E [Arg.str "only message"]).map Error.Error = some "unknown; only message" := by
  refine ⟨?_, ?_, ?_, by decide, by decide⟩
  · rw [E_reason_str]
    rfl
  · rw [E_str]
    simp [Error.Error, Reason.String]
  · rw [E_str]
    rfl

/-- Claim C15: for every `Error` `e`, `IsRedundant` returns true if and only if the message
of `e` is the empty string and the reason of `e` is Unknown; the result is the same whatever
`e` wraps. -/
theorem IsRedundant_spec (e : errors.Error) :
    (Error.IsRedundant e = true ↔ (e.Message = "" ∧ e.Reason = UnknownReason))
      ∧ (Error.IsRedundant e = false ↔ (e.Message ≠ "" ∨ e.Reason ≠ UnknownReason))
      ∧ ∀ c : error, Error.IsRedundant { e with Err := c } = Error.IsRedundant e := by
  refine ⟨by simp [Error.IsRedundant], ?_, fun c => rfl⟩
  simp only [Error.IsRedundant, Bool.and_eq_false_iff, beq_eq_false_iff_ne, ne_eq]

/-! ### Permuted argument lists -/

theorem getLast?_filterMap_of_perm {β : Type} (f : Arg → Option β) (args args2 : List Arg)
    (hp : args2.Perm args) (h : (args.filterMap f).length ≤ 1) :
    (args2.filterMap f).getLast? = (args.filterMap f).getLast? := by
  have hp2 : (args2.filterMap f).Perm (args.filterMap f) := hp.filterMap f
  cases hl : args.filterMap f with
  | nil =>
      rw [hl] at hp2
      rw [hp2.eq_nil]
  | cons b bs =>
      cases bs with
      | nil =>
          rw [hl] at hp2
          rw [List.perm_singleton.1 hp2]
      | cons c cs =>
          rw [hl] at h
          simp at h

theorem E_eq_of_same_lasts (args args2 : List Arg)
    (hnil : args2 = [] ↔ args = [])
    (hrec : (∀ a ∈ args2, a.recognised = true) ↔ (∀ a ∈ args, a.recognised = true))
    (h1 : lastReason args2 = lastReason args) (h2 : lastString args2 = lastString args)
    (h3 : lastErrorArg args2 = lastErrorArg args) :
    E args2 = E args := by
  have h4 : lastError args2 = lastError args := by
    unfold lastError
    rw [h3]
  apply Option.ext
  intro e
  show E args2 = some e ↔ E args = some e
  rw [E_eq_some_iff, E_eq_some_iff, h1, h2, h3, h4, hrec, Ne, Ne, hnil]

/-- Claim C14: `E` does not depend on the order of its arguments: for every argument list
with at least one argument, at most one `Reason`, at most one string and at most one
error-shaped value, `E` gives on every permutation of the list what it gives on the list
itself, and, when all the arguments are of a recognised shape (the error-shaped one not
being a nil `*Error` pointer, on which `E` returns nothing in any order), that is an `Error`:
the same reason, the same message and the same wrapped cause. -/
theorem E_order_independent (args args2 : List Arg) (hp : args2.Perm args) (hne : args ≠ [])
    (hr : (args.filterMap Arg.asReason).length ≤ 1)
    (hs : (args.filterMap Arg.asString).length ≤ 1)
    (he : (args.filterMap Arg.asError).length ≤ 1) :
    E args2 = E args
      ∧ ((∀ a ∈ args, a.recognised = true) → lastErrorArg args ≠ some Held.nilPtr →
          ∃ e e2 : errors.Error, E args = some e ∧ E args2 = some e2
            ∧ e2.Reason = e.Reason ∧ e2.Message = e.Message ∧ e2.Err = e.Err) := by
  have heq : E args2 = E args := by
    apply E_eq_of_same_lasts
    · constructor
      · intro h
        rw [h] at hp
        exact hp.symm.eq_nil
      · intro h
        rw [h] at hp
        exact hp.eq_nil
    · constructor
      · intro h a ha
        exact h a (hp.mem_iff.2 ha)
      · intro h a ha
        exact h a (hp.mem_iff.1 ha)
    · exact getLast?_filterMap_of_perm _ _ _ hp hr
    · exact getLast?_filterMap_of_perm _ _ _ hp hs
    · exact getLast?_filterMap_of_perm _ _ _ hp he
  refine ⟨heq, fun hall hnp => ?_⟩
  have hsome : E args = some _ := (E_eq_some_iff args _).2 ⟨hne, hall, hnp, rfl⟩
  exact ⟨_, _, hsome, by rw [heq]; exact hsome, rfl, rfl, rfl⟩

/-- Witness of C14: `E("m", cause, Invalid)` and `E(Invalid, "m", cause)`. -/
theorem E_order_independent_witness :
    E [Arg.reason Invalid, Arg.str "m", Arg.err (error.foreign "cause" error.nil)]
      = E [Arg.str "m", Arg.err (error.foreign "cause" error.nil), Arg.reason Invalid]
      ∧ E [Arg.str "m", Arg.err (error.foreign "cause" error.nil), Arg.reason Invalid]
        = some ⟨Invalid, "m", error.foreign "cause" error.nil⟩ :=
  ⟨(E_order_independent
      [Arg.str "m", Arg.err (error.foreign "cause" error.nil), Arg.reason Invalid]
      [Arg.reason Invalid, Arg.str "m", Arg.err (error.foreign "cause" error.nil)]
      (by decide) (by decide) (by decide) (by decide) (by decide)).1,
    by decide⟩

/-- Claim C17: wrapping with a bare `E` is transparent to an enclosing `E`: for every error
value `x` and every reason `r` and message `m`, `E(x)` is returned, and `E(r, m, E(x))` is
the same `Error` as `E(r, m, x)`, with reason `r` and message `m`; and `E(E(x))` is `E(x)`
field for field. -/
theorem E_bare_wrap_transparent (x : error) (hx : x ≠ error.nil) (r : Reason) (m : String) :
    ∃ inner outer : errors.Error,
      E [Arg.err x] = some inner
        ∧ E [Arg.reason r, Arg.str m, Arg.err x] = some outer
        ∧ E [Arg.reason r, Arg.str m, Arg.err inner.toError] = some outer
        ∧ outer.Reason = r ∧ outer.Message = m
        ∧ E [Arg.err inner.toError] = some inner := by
  have hred : Error.IsRedundant ⟨UnknownReason, "", causeFrom (some x)⟩ = true := by
    simp [Error.IsRedundant]
  refine ⟨⟨UnknownReason, "", causeFrom (some x)⟩, ⟨r, m, causeFrom (some x)⟩,
    E_err x hx, E_reason_str_err r m x hx, ?_, rfl, rfl, ?_⟩
  · rw [E_reason_str_err r m _ (toError_ne_nil _), causeFrom_toError, hred]
    rfl
  · rw [E_err _ (toError_ne_nil _), causeFrom_toError, hred]
    rfl

/-- Witness of C17: `x` is an `Error` with reason `NotFound` that wraps a foreign error. -/
theorem E_bare_wrap_transparent_witness :
    error.ptr NotFound "missing" (error.foreign "eof" error.nil) ≠ error.nil
      ∧ ∃ inner outer : errors.Error,
          E [Arg.err (error.ptr NotFound "missing" (error.foreign "eof" error.nil))]
              = some inner
            ∧ E [Arg.reason Internal, Arg.str "wrapping",
                  Arg.err (error.ptr NotFound "missing" (error.foreign "eof" error.nil))]
              = some outer
            ∧ E [Arg.reason Internal, Arg.str "wrapping", Arg.err inner.toError] = some outer
            ∧ outer.Reason = Internal ∧ outer.Message = "wrapping"
            ∧ E [Arg.err inner.toError] = some inner :=
  ⟨by decide,
    E_bare_wrap_transparent (error.ptr NotFound "missing" (error.foreign "eof" error.nil))
      (by decide) Internal "wrapping"⟩

/-- Claim C18: causes of a wrapped `Error` compose: for every `Error` `w`, every reason `r`
and message `m`, `E(r, m, w)` is returned; if `w` is not redundant its causes list is the
display text of `w` followed by the causes list of `w`; if `w` is redundant its causes list is
exactly the causes list of `w`, and its `StatusDetails` is the `StatusDetails` of `w`, absent
when `w` wraps nothing. -/
theorem causes_compose (w : errors.Error) (r : Reason) (m : String) :
    ∃ outer : errors.Error,
      E [Arg.reason r, Arg.str m, Arg.err w.toError] = some outer
        ∧ (Error.IsRedundant w = false →
            causesOf (Error.StatusDetails outer)
              = { Message := Error.Error w } :: causesOf (Error.StatusDetails w))
        ∧ (Error.IsRedundant w = true →
            causesOf (Error.StatusDetails outer) = causesOf (Error.StatusDetails w)
              ∧ Error.StatusDetails outer = Error.StatusDetails w
              ∧ (w.Err = error.nil → Error.StatusDetails outer = none)) := by
  refine ⟨⟨r, m, causeFrom (some w.toError)⟩,
    E_reason_str_err r m _ (toError_ne_nil _), ?_, ?_⟩
  · intro hred
    rw [causeFrom_toError, hred]
    exact causesOf_StatusDetails_toError r m w
  · intro hred
    rw [causeFrom_toError, hred]
    refine ⟨rfl, rfl, ?_⟩
    intro hnil
    show Error.StatusDetails ⟨r, m, w.Err⟩ = none
    rw [StatusDetails_eq]
    simp [hnil, chain]

/-! ### The closed world of the constructor -/

theorem mem_of_lastError (args : List Arg) (w : error) (h : lastError args = some w) :
    Arg.err w ∈ args := by
  have h2 := (lastError_eq_some_iff args w).1 h
  have hm : Held.value w ∈ args.filterMap Arg.asError := List.mem_of_getLast?_eq_some h2
  obtain ⟨a, ha, hfa⟩ := List.mem_filterMap.1 hm
  cases a with
  | reason r => simp [Arg.asError] at hfa
  | str t => simp [Arg.asError] at hfa
  | nilError => simp [Arg.asError] at hfa
  | other => simp [Arg.asError] at hfa
  | err x =>
      cases x with
      | nil => simp [Arg.asError] at hfa
      | ptr r t y =>
          simp only [Arg.asError, Option.some.injEq, Held.value.injEq] at hfa
          rw [← hfa]
          exact ha
      | foreign t y =>
          simp only [Arg.asError, Option.some.injEq, Held.value.injEq] at hfa
          rw [← hfa]
          exact ha

theorem chain_causeFrom_clean (o : Option error)
    (h : ∀ w, o = some w → ∀ l ∈ chain (unwrap w), l.redundant = false) :
    ∀ l ∈ chain (causeFrom o), l.redundant = false := by
  cases o with
  | none =>
      intro l hl
      simp [causeFrom, chain] at hl
  | some w =>
      have hw := h w rfl
      by_cases hred : isRedundantError w = true
      · simp only [causeFrom, hred, if_true]
        exact hw
      · have hcf : causeFrom (some w) = w := by
          show (if isRedundantError w = true then unwrap w else w) = w
          rw [if_neg hred]
        rw [hcf]
        rcases chain_eq_unwrap w with ⟨hnil, _⟩ | ⟨l0, hl0, hlr⟩
        · intro l hl
          rw [hnil] at hl
          simp at hl
        · intro l hl
          rw [hl0, List.mem_cons] at hl
          rcases hl with hl | hl
          · rw [hl, hlr]
            simpa using hred
          · exact hw l hl

theorem Closed.chain_clean (x : error) (hx : Closed x) :
    ∀ l ∈ chain (unwrap x), l.redundant = false := by
  induction hx with
  | foreign text =>
      intro l hl
      simp [unwrap, chain] at hl
  | built args e hcauses hE ih =>
      obtain ⟨_, _, _, he⟩ := (E_eq_some_iff args e).1 hE
      have hErr : unwrap e.toError = causeFrom (lastError args) := by
        rw [he]
        rfl
      rw [hErr]
      exact chain_causeFrom_clean _ (fun w hw => ih w (mem_of_lastError args w hw))

/-- Claim C16: in the closed world of the constructor (error values built with `E` alone from
reasons, strings and foreign errors that wrap nothing, only such values being fed back to `E`
as causes) no `Error` strictly below the top-level one in the cause chain is redundant; the
top-level `Error` itself may be redundant, as `E("")` is. -/
theorem closed_world_chain_clean (x : error) (hx : Closed x) :
    (∀ l ∈ chain (unwrap x), l.redundant = false)
      ∧ (∀ e : errors.Error, x = e.toError → ∀ l ∈ chain e.Err, l.redundant = false)
      ∧ (E [Arg.str ""] = some ⟨UnknownReason, "", error.nil⟩
          ∧ Closed (Error.toError ⟨UnknownReason, "", error.nil⟩)
          ∧ Error.IsRedundant ⟨UnknownReason, "", error.nil⟩ = true) := by
  refine ⟨Closed.chain_clean x hx, ?_, by decide, ?_, by decide⟩
  · intro e he
    have h := Closed.chain_clean x hx
    rw [he] at h
    exact h
  · exact Closed.built [Arg.str ""] ⟨UnknownReason, "", error.nil⟩
      (fun w hw => by simp at hw) (by decide)

/-- Witness of C16: `E(NotFound, "missing", E(eof))` for a foreign error `eof`; the bare
inner `E(eof)` is redundant and is spliced out. -/
theorem closed_world_chain_clean_witness :
    Closed (error.ptr NotFound "missing" (error.foreign "eof" error.nil))
      ∧ ∀ l ∈ chain (unwrap (error.ptr NotFound "missing" (error.foreign "eof" error.nil))),
          l.redundant = false :=
  have hinner : Closed (Error.toError ⟨UnknownReason, "", error.foreign "eof" error.nil⟩) :=
    Closed.built [Arg.err (error.foreign "eof" error.nil)]
      ⟨UnknownReason, "", error.foreign "eof" error.nil⟩
      (fun w hw => by
        simp only [List.mem_singleton, Arg.err.injEq] at hw
        rw [hw]
        exact Closed.foreign "eof")
      (by decide)
  have houter : Closed (Error.toError ⟨NotFound, "missing", error.foreign "eof" error.nil⟩) :=
    Closed.built
      [Arg.reason NotFound, Arg.str "missing",
        Arg.err (Error.toError ⟨UnknownReason, "", error.foreign "eof" error.nil⟩)]
      ⟨NotFound, "missing", error.foreign "eof" error.nil⟩
      (fun w hw => by
        simp only [List.mem_cons, List.mem_singleton, Arg.err.injEq, List.not_mem_nil,
          or_false, false_or, reduceCtorEq] at hw
        rw [hw]
        exact hinner)
      (by decide)
  ⟨houter, (closed_world_chain_clean _ houter).1⟩

/-! ### The decimal rendering can be read back -/

theorem readChar_digitChar (st : Bool × Nat) (k : Nat) (hk : k < 10) :
    readChar st (Nat.digitChar k) = (st.1, 10 * st.2 + k) := by
  have h : Nat.digitChar k ≠ '-' ∧ (Nat.digitChar k).toNat - 48 = k := by
    interval_cases k <;> decide
  simp [readChar, h.1, h.2]

theorem foldl_readChar_toDigitsCore (fuel : Nat) :
    ∀ (n : Nat) (ds : List Char) (s : Bool), n < fuel →
      (Nat.toDigitsCore 10 fuel n ds).foldl readChar (s, 0) = ds.foldl readChar (s, n) := by
  induction fuel with
  | zero => intro n ds s h; omega
  | succ fuel ih =>
      intro n ds s h
      simp only [Nat.toDigitsCore]
      by_cases h0 : n / 10 = 0
      · rw [if_pos h0, List.foldl_cons, readChar_digitChar _ _ (Nat.mod_lt _ (by decide))]
        have : 10 * 0 + n % 10 = n := by omega
        simp only [this]
      · rw [if_neg h0, ih (n / 10) _ s (by omega), List.foldl_cons,
          readChar_digitChar _ _ (Nat.mod_lt _ (by decide))]
        have : 10 * (n / 10) + n % 10 = n := by omega
        simp only [this]

theorem readDecimal_repr (n : Nat) : readDecimal (Nat.repr n) = (false, n) := by
  show (Nat.toDigitsCore 10 (n + 1) n []).foldl readChar (false, 0) = (false, n)
  rw [foldl_readChar_toDigitsCore (n + 1) n [] false (by omega)]
  rfl

theorem readDecimal_minus_repr (n : Nat) : readDecimal ("-" ++ Nat.repr n) = (true, n) := by
  show (("-" ++ Nat.repr n).data).foldl readChar (false, 0) = (true, n)
  rw [String.data_append]
  show (Nat.toDigitsCore 10 (n + 1) n []).foldl readChar (readChar (false, 0) '-') = (true, n)
  have h : readChar (false, 0) '-' = (true, 0) := by decide
  rw [h, foldl_readChar_toDigitsCore (n + 1) n [] true (by omega)]
  rfl

theorem readDecimal_fmtD (z : Int) : readDecimal (fmtD z) = signMagnitude z := by
  cases z with
  | ofNat n =>
      show readDecimal (Nat.repr n) = _
      rw [readDecimal_repr]
      simp [signMagnitude]
  | negSucc m =>
      show readDecimal ("-" ++ Nat.repr (m + 1)) = _
      rw [readDecimal_minus_repr]
      simp [signMagnitude, Int.negSucc_lt_zero]

theorem signMagnitude_injective (a b : Int) (h : signMagnitude a = signMagnitude b) :
    a = b := by
  simp only [signMagnitude, Prod.mk.injEq, decide_eq_decide] at h
  omega

theorem fmtD_injective (a b : Int) (h : fmtD a = fmtD b) : a = b :=
  signMagnitude_injective a b (by rw [← readDecimal_fmtD, ← readDecimal_fmtD, h])

/-! ### Labels -/

theorem take_default_label (x : String) :
    (("unknown (" ++ x ++ ")").data).take 9 = ['u', 'n', 'k', 'n', 'o', 'w', 'n', ' ', '('] := by
  rw [String.data_append, String.data_append]
  rfl

theorem named_label_ne_default (r : Reason) (hr : r ∈ namedReasons) (x : String) :
    Reason.String r ≠ "unknown (" ++ x ++ ")" := by
  intro h
  have ht := take_default_label x
  rw [← h] at ht
  simp only [namedReasons, List.mem_cons, List.mem_singleton, List.not_mem_nil, or_false] at hr
  rcases hr with rfl | rfl | rfl | rfl | rfl | rfl | rfl <;> exact absurd ht (by decide)

theorem default_label_injective (a b : Int)
    (h : "unknown (" ++ fmtD a ++ ")" = "unknown (" ++ fmtD b ++ ")") : a = b := by
  have hd := congrArg String.data h
  simp only [String.data_append, List.append_assoc, List.append_cancel_left_eq,
    List.append_cancel_right_eq] at hd
  exact fmtD_injective a b (String.ext hd)

theorem Reason.String_injective (a b : Reason) (h : Reason.String a = Reason.String b) :
    a = b := by
  by_cases ha : a ∈ namedReasons
  · by_cases hb : b ∈ namedReasons
    · simp only [namedReasons, List.mem_cons, List.mem_singleton, List.not_mem_nil,
        or_false] at ha hb
      rcases ha with rfl | rfl | rfl | rfl | rfl | rfl | rfl <;>
        rcases hb with rfl | rfl | rfl | rfl | rfl | rfl | rfl <;>
        first
          | rfl
          | exact absurd h (by decide)
    · rw [Reason.String_of_not_named b hb] at h
      exact absurd h (named_label_ne_default a ha _)
  · by_cases hb : b ∈ namedReasons
    · rw [Reason.String_of_not_named a ha] at h
      exact absurd h.symm (named_label_ne_default b hb _)
    · rw [Reason.String_of_not_named a ha, Reason.String_of_not_named b hb] at h
      exact default_label_injective a b h

/-- Claim C19: `Reason.String` is injective over every `Reason` value, named or not: the seven
named labels are pairwise distinct, none of them has the form "unknown (N)", and distinct `N`
give distinct "unknown (N)" texts; `StatusReason` and `Code` are not injective, Unknown and
Internal agreeing on both. -/
theorem Reason_label_injective :
    Function.Injective Reason.String
      ∧ (namedReasons.map Reason.String).Nodup
      ∧ (∀ r ∈ namedReasons, ∀ N : Int, Reason.String r ≠ "unknown (" ++ fmtD N ++ ")")
      ∧ (∀ M N : Int, "unknown (" ++ fmtD M ++ ")" = "unknown (" ++ fmtD N ++ ")" → M = N)
      ∧ (UnknownReason ≠ Internal
          ∧ Reason.StatusReason UnknownReason = Reason.StatusReason Internal
          ∧ Reason.Code UnknownReason = Reason.Code Internal)
      ∧ ¬ Function.Injective Reason.StatusReason
      ∧ ¬ Function.Injective Reason.Code := by
  refine ⟨fun a b h => Reason.String_injective a b h, by decide,
    fun r hr N => named_label_ne_default r hr _, default_label_injective,
    ⟨by decide, by decide, by decide⟩, ?_, ?_⟩
  · intro hinj
    have h : UnknownReason = Internal := hinj (by decide)
    exact absurd h (by decide)
  · intro hinj
    have h : UnknownReason = Internal := hinj (by decide)
    exact absurd h (by decide)

end errors
